import Mathlib

/-!
Shallow embedding of the `synchrotron` crate: a single-threaded busy-wait
executor (`src/lib.rs`), the one-shot result cell (`src/drop_off.rs`) and the
spawn-and-collect adapter (`src/spawn_future.rs`).

Conventions of the embedding:
* machine integers become `Nat` (no arithmetic here ever overflows `usize`
  in the source's intended range);
* the shared, mutex-protected ready queue becomes an explicit `List Nat`
  threaded through every operation;
* a future's poll is a pure oracle: it returns its result, its mutated
  internal state, and the list of executor-visible effects it performed
  while running (the only effects a future can have on the core are
  unparking a ticket, deactivating a ticket, or spawning through a
  `Handle`).
-/

namespace Synchrotron

/-- Poll status of a futures-0.1 future (`futures::Async`). -/
inductive Async (α : Type) where
  | Ready (x : α)
  | NotReady
deriving DecidableEq

/-- Rust `Poll<T, E> = Result<Async<T>, E>` from futures 0.1. -/
abbrev PollR (α ε : Type) := Except ε (Async α)

/-!
Model of the external `index_queue::IndexQueue` used as the ready queue.
Modelled from the spec: an ordered sequence of identifiers with set
semantics — `push_back` is idempotent while the identifier is already
queued, `remove` deletes the (unique) entry, `pop_front` takes the head.
-/

/-- IndexQueue.push_back: append unless already present (dedup on insert). -/
def pushBack (q : List Nat) (i : Nat) : List Nat :=
  if i ∈ q then q else q ++ [i]

/-- IndexQueue.remove: delete the entry for `i` if present. -/
def queueRemove (q : List Nat) (i : Nat) : List Nat :=
  q.erase i

/-- IndexQueue.pop_front: take the front identifier. -/
def popFront : List Nat → Option (Nat × List Nat)
  | [] => none
  | x :: xs => some (x, xs)

/-!
`SpawnId` (src/lib.rs lines 30-59): queue index 0 is the main task,
queue index n+1 is auxiliary arena slot n.
-/

/-- SpawnId::main — the reserved queue index of the main task. -/
def SpawnId.main : Nat := 0

/-- SpawnId::aux — queue index of auxiliary arena slot `i`. -/
def SpawnId.aux (i : Nat) : Nat := i + 1

/-- SpawnId::to_aux — `None` for main, `Some(index - 1)` otherwise. -/
def SpawnId.toAux (n : Nat) : Option Nat :=
  if n = SpawnId.main then none else some (n - 1)

/-!
`Ticket` (src/lib.rs lines 62-101).  `TicketInner` holds the owning id and
an `Option<Arc<Mutex<IndexQueue>>>`; the reference is to the single queue
of the owning core, so the model keeps only whether it is `Some`
(`has_queue`).  Nothing in the source ever assigns `None` to that field
after construction, so `deactivate` and `unpark` never change the ticket
itself — they only act on the shared queue.
-/

/-- TicketInner: owning id plus presence of the queue reference. -/
structure Ticket where
  id : Nat
  has_queue : Bool
deriving DecidableEq

/-- Ticket::deactivate — remove any queued entry for the owning id.  The
queue reference itself is NOT cleared by the source. -/
def Ticket.deactivate (t : Ticket) (q : List Nat) : List Nat :=
  if t.has_queue then queueRemove q t.id else q

/-- Ticket::unpark (the `Unpark` impl) — enqueue the owning id. -/
def Ticket.unpark (t : Ticket) (q : List Nat) : List Nat :=
  if t.has_queue then pushBack q t.id else q

/-!
Model of the external `vec_arena::Arena`: a growable slot vector plus a
LIFO free list of vacated indices.  `insert` reuses the most recently
freed slot, else appends; `remove` on a vacant slot is a no-op returning
`None`; indexed assignment (`IndexMut`) requires the slot to be occupied
(the source only assigns to the slot it just emptied, which stays
occupied for the duration).
-/

structure Arena (α : Type) where
  slots : List (Option α)
  free : List Nat
deriving DecidableEq

/-- Arena::new — empty arena. -/
def Arena.empty {α : Type} : Arena α := ⟨[], []⟩

/-- Occupant of slot `i`, `none` when vacant or out of range. -/
def Arena.get {α : Type} (a : Arena α) (i : Nat) : Option α :=
  a.slots.getD i none

/-- Arena::insert — pop the free list or append; returns the new index. -/
def Arena.insert {α : Type} (a : Arena α) (v : α) : Nat × Arena α :=
  match a.free with
  | [] => (a.slots.length, ⟨a.slots ++ [some v], []⟩)
  | i :: rest => (i, ⟨a.slots.set i (some v), rest⟩)

/-- Arena::remove — vacate slot `i` if occupied, no-op otherwise. -/
def Arena.remove {α : Type} (a : Arena α) (i : Nat) : Option α × Arena α :=
  match a.get i with
  | none => (none, a)
  | some v => (some v, ⟨a.slots.set i none, i :: a.free⟩)

/-- Indexed assignment into an occupied slot (`arena[i] = v`). -/
def Arena.set {α : Type} (a : Arena α) (i : Nat) (v : α) : Arena α :=
  ⟨a.slots.set i (some v), a.free⟩

/-- Arena::is_empty — no occupied slots. -/
def Arena.isEmpty {α : Type} (a : Arena α) : Bool :=
  a.slots.all Option.isNone

/-- Well-formedness of the free list: every free index is an in-range
vacant slot.  Every arena reachable through the source's operations
satisfies this. -/
def Arena.WF {α : Type} (a : Arena α) : Prop :=
  ∀ i ∈ a.free, a.slots.getD i none = none ∧ i < a.slots.length

/-!
`Spawned` and `Inner` (src/lib.rs lines 103-133).  The arena stores
`Option<SpawnedBox>`: an occupied arena slot may transiently hold `None`
(reserved-empty during `spawn`, emptied-for-polling during `turn_with`).
A task's pollable object is abstracted to a value of a type parameter
`τ`; its behavior is supplied as an oracle where it is polled.
-/

/-- Spawned: a task object paired with its wake ticket. -/
structure Spawned (τ : Type) where
  task : τ
  ticket : Ticket
deriving DecidableEq

/-- Inner: the executor state — arena of auxiliary slots plus ready queue. -/
structure Inner (τ : Type) where
  spawns : Arena (Option (Spawned τ))
  queue : List Nat
deriving DecidableEq

/-- Inner::default — fresh core state: empty arena, empty queue. -/
def Inner.new {τ : Type} : Inner τ := ⟨Arena.empty, []⟩

/-- Inner::new_ticket — build an active ticket for `id` and immediately
unpark it (enqueueing `id`). -/
def Inner.new_ticket {τ : Type} (st : Inner τ) (id : Nat) : Ticket × Inner τ :=
  let ticket : Ticket := ⟨id, true⟩
  (ticket, { st with queue := ticket.unpark st.queue })

/-- Executor-visible effects a future can perform while being polled:
unpark a ticket, deactivate a ticket, or spawn a task through a live
`Handle` to this core. -/
inductive EAction (τ : Type) where
  | unparkT (t : Ticket)
  | deactivateT (t : Ticket)
  | spawnT (f : τ)

/-- Handle::spawn (src/lib.rs lines 158-170).  `alive` is whether the
weak reference upgrades; when dead the task is silently discarded.
Otherwise: reserve an arena slot holding `None`, create and unpark a new
ticket for it, then populate the slot. -/
def Handle.spawn {τ : Type} (alive : Bool) (st : Inner τ) (f : τ) : Inner τ :=
  if alive then
    let ins := st.spawns.insert none
    let st1 : Inner τ := { st with spawns := ins.2 }
    let tk := st1.new_ticket (SpawnId.aux ins.1)
    { tk.2 with spawns := tk.2.spawns.set ins.1 (some ⟨f, tk.1⟩) }
  else st

/-- Apply one executor-visible effect to the state. -/
def applyAction {τ : Type} (st : Inner τ) : EAction τ → Inner τ
  | EAction.unparkT t => { st with queue := t.unpark st.queue }
  | EAction.deactivateT t => { st with queue := t.deactivate st.queue }
  | EAction.spawnT f => Handle.spawn true st f

/-- Apply the sequence of effects a poll performed, in order. -/
def applyActions {τ : Type} (st : Inner τ) (acts : List (EAction τ)) : Inner τ :=
  acts.foldl applyAction st

/-!
The turn protocol (src/lib.rs lines 260-318).  `turn_with` receives
`main: Result<&mut Spawned<F>, F::Item>`: `Ok` carries the main spawned
object, `Err` carries the idle-completion item (bare `turn`).  Polling is
given by oracles: `pollMain` maps the main task's internal state to its
poll result, mutated state and effect list; `pollAux` does the same for
an auxiliary task, whose result is only a completion flag because its
item is `()` and its error type `Void` is uninhabited
(`if let Ok(Async::Ready(())) = poll`).
-/

/-- Rust `Result<&mut Spawned<F>, F::Item>`: the optional main spawn. -/
inductive MainArg (σ ι : Type) where
  | spawned (m : Spawned σ)
  | item (x : ι)

/-- Core::turn_with.  Returns the value returned to the caller, the new
executor state, and the (possibly mutated) main argument. -/
def Core.turn_with {τ σ ι ε : Type} (st : Inner τ) (main : MainArg σ ι)
    (pollMain : σ → PollR ι ε × σ × List (EAction τ))
    (pollAux : τ → Bool × τ × List (EAction τ)) :
    Option (PollR ι ε) × Inner τ × MainArg σ ι :=
  match popFront st.queue with
  | none =>
    (if st.spawns.isEmpty then
       match main with
       | MainArg.item x => some (Except.ok (Async.Ready x))
       | MainArg.spawned _ => none
     else none, st, main)
  | some (index, q1) =>
    let st1 : Inner τ := { st with queue := q1 }
    match SpawnId.toAux index with
    | none =>
      match main with
      | MainArg.item x => (some (Except.ok Async.NotReady), st1, MainArg.item x)
      | MainArg.spawned m =>
        let pr := pollMain m.task
        let st2 := applyActions st1 pr.2.2
        let st3 := match pr.1 with
          | Except.ok (Async.Ready _) => { st2 with queue := m.ticket.deactivate st2.queue }
          | _ => st2
        (some pr.1, st3, MainArg.spawned ⟨pr.2.1, m.ticket⟩)
    | some aux =>
      match st1.spawns.get aux with
      | none =>
        (some (Except.ok Async.NotReady), { st1 with spawns := (st1.spawns.remove aux).2 }, main)
      | some none =>
        (some (Except.ok Async.NotReady), { st1 with spawns := (st1.spawns.remove aux).2 }, main)
      | some (some sp) =>
        let st2 : Inner τ := { st1 with spawns := st1.spawns.set aux none }
        let pr := pollAux sp.task
        let st3 := applyActions st2 pr.2.2
        if pr.1 then
          (some (Except.ok Async.NotReady),
           { spawns := (st3.spawns.remove aux).2,
             queue := sp.ticket.deactivate st3.queue },
           main)
        else
          (some (Except.ok Async.NotReady),
           { st3 with spawns := st3.spawns.set aux (some ⟨pr.2.1, sp.ticket⟩) },
           main)

/-- Core::turn — `turn_with::<future::Empty<(), Void>>(Err(()))`.  The
main-poll oracle is irrelevant (the `Err` branch never polls). -/
def Core.turn {τ : Type} (st : Inner τ)
    (pollAux : τ → Bool × τ × List (EAction τ)) :
    Option (PollR Unit Empty) × Inner τ :=
  let r := Core.turn_with st (MainArg.item ())
    (fun s : Unit => (Except.ok Async.NotReady, s, [])) pollAux
  (r.1, r.2.1)

/-- Core::run_future, the part that touches the executor state
(src/lib.rs lines 238-255): clear any stale queue entry left at the main
identifier by an abandoned `RunFuture`, then build (and unpark) a fresh
main ticket. -/
def Core.run_future_setup {τ : Type} (st : Inner τ) : Ticket × Inner τ :=
  Inner.new_ticket { st with queue := queueRemove st.queue SpawnId.main } SpawnId.main

/-!
The one-shot result cell (src/drop_off.rs).  The cell is an
`Rc<RefCell<Option<T>>>` whose sole strong reference is held by the
`Receiver` and whose single weak reference is held by the `Sender`.  The
model keeps the cell's stored value plus the liveness of the two halves:
`receiver_alive` is whether the strong reference still exists (so the
sender's `Weak::upgrade` succeeds) and `sender_alive` is whether the
weak reference still exists (so `Rc::weak_count` is nonzero).
-/

/-- State of a drop-off cell together with its two halves. -/
structure DropOff (α : Type) where
  value : Option α
  receiver_alive : Bool
  sender_alive : Bool
deriving DecidableEq

/-- drop_off::new — empty cell, both halves alive. -/
def drop_off.new {α : Type} : DropOff α := ⟨none, true, true⟩

/-- Sender::send (src/drop_off.rs lines 24-32) — consumes the sender; if
the receiver is alive, store the value; otherwise hand it back
(`Err(value)`). -/
def Sender.send {α : Type} (c : DropOff α) (v : α) : DropOff α × Except α Unit :=
  if c.receiver_alive then
    ({ c with value := some v, sender_alive := false }, Except.ok ())
  else
    ({ c with sender_alive := false }, Except.error v)

/-- Sender dropped without sending: only the weak reference disappears. -/
def Sender.drop {α : Type} (c : DropOff α) : DropOff α :=
  { c with sender_alive := false }

/-- Receiver dropped without taking: the sole strong reference
disappears (and with it the cell's contents). -/
def Receiver.drop {α : Type} (c : DropOff α) : DropOff α :=
  { c with receiver_alive := false }

/-- Receiver::take (src/drop_off.rs lines 44-56) — consumes the
receiver.  `Ok v` when a value is present; otherwise `Err None`
(permanent absence, `weak_count == 0`) or `Err (Some receiver)` (the
receiver is handed back for retry, so it stays alive). -/
def Receiver.take {α : Type} (c : DropOff α) : DropOff α × Except (Option Unit) α :=
  match c.value with
  | some v => ({ c with value := none, receiver_alive := false }, Except.ok v)
  | none =>
    if c.sender_alive then (c, Except.error (some ()))
    else ({ c with receiver_alive := false }, Except.error none)

/-!
The spawn-and-collect adapter (src/spawn_future.rs).
`SpawnedFuture` is the internal wrapper task spawned into the core;
`State`/`SpawnFuture` is the three-state adapter handed to the caller.
-/

/-- SpawnedFuture: the wrapped future (abstracted to `φ`), the optional
sending half (modelled by the state of the cell it points at; `none`
once consumed), and the captured caller wake registration
(`task: Task`, modelled as the caller's ticket). -/
structure SpawnedFuture (φ α : Type) where
  future : φ
  sender : Option (DropOff α)
  task : Ticket
deriving DecidableEq

/-- Outcome of one poll of the wrapper task.  `ready` carries the ticket
it unparked (`self.task.unpark()`) on its way to completion;
`panicked` records a reached `panic` or a failed `expect`. -/
inductive WResult where
  | notReady
  | ready (wake : Ticket)
  | panicked (msg : String)
deriving DecidableEq

/-- SpawnedFuture::poll (src/spawn_future.rs lines 31-42).  The inner
future's poll is the oracle `pollF`: it returns the mutated future and
`none` for `NotReady` or `some r` with `r` the `Result` built on lines
32-36.  On resolution the sender is taken out of its `Option` (panicking
with "polled too many times" if already consumed), the result is sent
(send failure ignored), and the captured task is unparked.  The third
component of the output is the cell after the send, when one happened. -/
def SpawnedFuture.poll {φ α : Type} (w : SpawnedFuture φ α)
    (pollF : φ → φ × Option α) :
    SpawnedFuture φ α × WResult × Option (DropOff α) :=
  let pr := pollF w.future
  match pr.2 with
  | none => ({ w with future := pr.1 }, WResult.notReady, none)
  | some r =>
    match w.sender with
    | none => ({ w with future := pr.1 }, WResult.panicked "polled too many times", none)
    | some cell =>
      ({ w with future := pr.1, sender := none },
       WResult.ready w.task,
       some (Sender.send cell r).1)

/-- The adapter's state enum (src/spawn_future.rs lines 45-49).
`Starting` keeps the handle's liveness (whether its weak reference
upgrades) and the not-yet-spawned future; `Waiting` keeps the receiving
half, modelled by the state of the cell it owns. -/
inductive State (φ ι ε : Type) where
  | Starting (handle_alive : Bool) (future : φ)
  | Waiting (receiver : DropOff (Except ε ι))
  | Invalid

/-- What one poll of the adapter reports to its caller. -/
inductive SFResult (ι ε : Type) where
  | ready (x : ι)
  | notReady
  | err (e : ε)
  | panicked (msg : String)

/-- SpawnFuture::poll (src/spawn_future.rs lines 101-125).  `caller` is
`task::park()`, the current task's wake registration.  The state is
`mem::replace`d with `Invalid` up front; only the spurious-wake branch
restores `Waiting`.  From `Starting` a fresh cell pair is built and the
wrapper task is handed to `handle.spawn` — the third output component is
that spawn request (liveness flag plus wrapper), handled by
`Handle.spawn`; the wrapper's sender refers to the same cell the new
`Waiting` state holds. -/
def SpawnFuture.poll {φ ι ε : Type} (caller : Ticket) (s : State φ ι ε) :
    State φ ι ε × SFResult ι ε × Option (Bool × SpawnedFuture φ (Except ε ι)) :=
  match s with
  | State.Starting alive f =>
    (State.Waiting drop_off.new, SFResult.notReady,
     some (alive, ⟨f, some drop_off.new, caller⟩))
  | State.Waiting r =>
    let tk := Receiver.take r
    match tk.2 with
    | Except.ok (Except.ok x) => (State.Invalid, SFResult.ready x, none)
    | Except.ok (Except.error e) => (State.Invalid, SFResult.err e, none)
    | Except.error (some _) => (State.Waiting tk.1, SFResult.notReady, none)
    | Except.error none =>
      (State.Invalid, SFResult.panicked "SpawnedFuture was dropped", none)
  | State.Invalid => (State.Invalid, SFResult.panicked "invalid State", none)

/-!
Theorems.
-/

/-- C7: for every value and every cell, `send` stores the value and
returns success exactly when the receiving half still exists; when the
receiving half has been destroyed it returns the value back to the
caller unconsumed. -/
theorem c7_sender_send_spec {α : Type} (c : DropOff α) (v : α) :
    ((Sender.send c v).2 = Except.ok () ↔ c.receiver_alive = true)
  ∧ (c.receiver_alive = true → (Sender.send c v).1.value = some v)
  ∧ (c.receiver_alive = false → (Sender.send c v).2 = Except.error v) := by
  cases hc : c.receiver_alive <;> simp [Sender.send, hc]

/-- C7 witness: receiver-gone-first at `7`: the value comes back. -/
theorem c7_witness :
    (Sender.send (Receiver.drop (drop_off.new : DropOff Nat)) 7).2 = Except.error 7 :=
  (c7_sender_send_spec (Receiver.drop (drop_off.new : DropOff Nat)) 7).2.2 rfl

/-- C8: `take` returns a present value (clearing it); with no value and a
destroyed sender it reports permanent absence; with no value but a live
sender it hands the receiver back unchanged.  A value sent into a fresh
pair is yielded exactly once: a `take` that succeeded leaves a cell from
which no further `take` can succeed. -/
theorem c8_receiver_take_spec {α : Type} (c : DropOff α) (v : α) :
    (c.value = some v → (Receiver.take c).2 = Except.ok v ∧ (Receiver.take c).1.value = none)
  ∧ (c.value = none → c.sender_alive = false → (Receiver.take c).2 = Except.error none)
  ∧ (c.value = none → c.sender_alive = true → Receiver.take c = (c, Except.error (some ())))
  ∧ (Receiver.take (Sender.send (drop_off.new : DropOff α) v).1).2 = Except.ok v
  ∧ (∀ u : α, (Receiver.take c).2 = Except.ok u →
      ∀ w : α, (Receiver.take (Receiver.take c).1).2 ≠ Except.ok w) := by
  refine ⟨?_, ?_, ?_, ?_, ?_⟩
  · intro h; simp [Receiver.take, h]
  · intro h hs; simp [Receiver.take, h, hs]
  · intro h hs; simp [Receiver.take, h, hs]
  · simp [Receiver.take, Sender.send, drop_off.new]
  · intro u hu w
    cases hv : c.value with
    | none =>
      cases hs : c.sender_alive <;> simp [Receiver.take, hv, hs] at hu
    | some x =>
      cases hs : c.sender_alive <;>
        simp [Receiver.take, hv, hs]

/-- C8 witness: single delivery at `42`, and a cell holding `5` yields it
once but never a second time. -/
theorem c8_witness :
    (Receiver.take (Sender.send (drop_off.new : DropOff Nat) 42).1).2 = Except.ok 42
  ∧ (Receiver.take (⟨some 5, true, true⟩ : DropOff Nat)).2 = Except.ok 5
  ∧ (Receiver.take (Receiver.take (⟨some 5, true, true⟩ : DropOff Nat)).1).2 ≠ Except.ok 5 :=
  ⟨(c8_receiver_take_spec (⟨some 5, true, true⟩ : DropOff Nat) 42).2.2.2.1,
   ((c8_receiver_take_spec (⟨some 5, true, true⟩ : DropOff Nat) 5).1 rfl).1,
   (c8_receiver_take_spec (⟨some 5, true, true⟩ : DropOff Nat) 5).2.2.2.2 5
     ((c8_receiver_take_spec (⟨some 5, true, true⟩ : DropOff Nat) 5).1 rfl).1 5⟩

/-- C9: polling the adapter in the Waiting state: a stored success value
is reported `Ready`; a stored error is propagated; an absent but still
possible value leaves the state Waiting and reports `NotReady`; and a
permanently absent value (sending half gone) aborts by panicking. -/
theorem c9_spawn_future_waiting {φ ι ε : Type} (caller : Ticket)
    (r : DropOff (Except ε ι)) :
    (∀ x, r.value = some (Except.ok x) →
       SpawnFuture.poll caller (State.Waiting r : State φ ι ε)
         = (State.Invalid, SFResult.ready x, none))
  ∧ (∀ e, r.value = some (Except.error e) →
       SpawnFuture.poll caller (State.Waiting r : State φ ι ε)
         = (State.Invalid, SFResult.err e, none))
  ∧ (r.value = none → r.sender_alive = true →
       SpawnFuture.poll caller (State.Waiting r : State φ ι ε)
         = (State.Waiting r, SFResult.notReady, none))
  ∧ (r.value = none → r.sender_alive = false →
       SpawnFuture.poll caller (State.Waiting r : State φ ι ε)
         = (State.Invalid, SFResult.panicked "SpawnedFuture was dropped", none)) := by
  refine ⟨?_, ?_, ?_, ?_⟩
  · intro x h; simp [SpawnFuture.poll, Receiver.take, h]
  · intro e h; simp [SpawnFuture.poll, Receiver.take, h]
  · intro h hs; simp [SpawnFuture.poll, Receiver.take, h, hs]
  · intro h hs; simp [SpawnFuture.poll, Receiver.take, h, hs]

/-- C9 witness: a cell holding `Ok 3` makes the Waiting adapter report
`Ready 3`; one holding nothing with the sender gone makes it panic. -/
theorem c9_witness :
    SpawnFuture.poll ⟨0, true⟩
        (State.Waiting ⟨some (Except.ok 3), true, true⟩ : State Unit Nat Unit)
      = (State.Invalid, SFResult.ready 3, none)
  ∧ SpawnFuture.poll ⟨0, true⟩
        (State.Waiting ⟨none, true, false⟩ : State Unit Nat Unit)
      = (State.Invalid, SFResult.panicked "SpawnedFuture was dropped", none) :=
  ⟨(c9_spawn_future_waiting ⟨0, true⟩ ⟨some (Except.ok 3), true, true⟩).1 3 rfl,
   (c9_spawn_future_waiting ⟨0, true⟩ ⟨none, true, false⟩).2.2.2 rfl rfl⟩

/-- C10 counterexample: a wrapper that has completed (its sender
consumed) does NOT panic when polled again if the wrapped future's
re-poll reports `NotReady`: the claim's unconditional "polling it again
panics" fails.  The first poll completes and consumes the sender; the
second returns `NotReady`. -/
theorem c10_counterexample :
    (SpawnedFuture.poll (⟨(), some drop_off.new, ⟨0, true⟩⟩ : SpawnedFuture Unit Nat)
        (fun u => (u, some 5))).2.1 = WResult.ready ⟨0, true⟩
  ∧ (SpawnedFuture.poll (⟨(), some drop_off.new, ⟨0, true⟩⟩ : SpawnedFuture Unit Nat)
        (fun u => (u, some 5))).1.sender = none
  ∧ (SpawnedFuture.poll
        (SpawnedFuture.poll (⟨(), some drop_off.new, ⟨0, true⟩⟩ : SpawnedFuture Unit Nat)
          (fun u => (u, some 5))).1
        (fun u => (u, none))).2.1 = WResult.notReady := by
  refine ⟨rfl, rfl, rfl⟩

/-- C10 amended: re-polling the wrapper after it reported completion
panics exactly when the wrapped future's poll resolves again; if the
wrapped future reports `NotReady` the wrapper returns `NotReady` without
reaching the panic.  A poll with the sender still present never panics,
and the completing poll is the one that consumes the sender — so under
the contract that a future is never polled after `Ready`, the panic
branch is unreachable. -/
theorem c10_spawned_future_overpoll {φ α : Type} (w : SpawnedFuture φ α)
    (pollF : φ → φ × Option α) :
    (w.sender = none → ∀ f1 r, pollF w.future = (f1, some r) →
        (SpawnedFuture.poll w pollF).2.1 = WResult.panicked "polled too many times")
  ∧ (∀ c, w.sender = some c →
        ∀ msg, (SpawnedFuture.poll w pollF).2.1 ≠ WResult.panicked msg)
  ∧ (∀ c f1 r, w.sender = some c → pollF w.future = (f1, some r) →
        (SpawnedFuture.poll w pollF).1.sender = none
      ∧ (SpawnedFuture.poll w pollF).2.1 = WResult.ready w.task)
  ∧ (∀ f1, pollF w.future = (f1, none) →
        SpawnedFuture.poll w pollF = ({ w with future := f1 }, WResult.notReady, none)) := by
  refine ⟨?_, ?_, ?_, ?_⟩
  · intro hs f1 r hp; simp [SpawnedFuture.poll, hp, hs]
  · intro c hs msg
    cases hp : pollF w.future with
    | mk f1 res =>
      cases res <;> simp [SpawnedFuture.poll, hp, hs]
  · intro c f1 r hs hp; simp [SpawnedFuture.poll, hp, hs]
  · intro f1 hp; simp [SpawnedFuture.poll, hp]

/-- C10 witness for the amended claim: concrete overpoll with a
re-resolving inner future panics; with the sender present it completes. -/
theorem c10_witness :
    (SpawnedFuture.poll (⟨(), none, ⟨0, true⟩⟩ : SpawnedFuture Unit Nat)
        (fun u => (u, some 5))).2.1 = WResult.panicked "polled too many times"
  ∧ (SpawnedFuture.poll (⟨(), some drop_off.new, ⟨0, true⟩⟩ : SpawnedFuture Unit Nat)
        (fun u => (u, some 5))).2.1 = WResult.ready ⟨0, true⟩ :=
  ⟨(c10_spawned_future_overpoll (⟨(), none, ⟨0, true⟩⟩ : SpawnedFuture Unit Nat)
      (fun u => (u, some 5))).1 rfl () 5 rfl,
   ((c10_spawned_future_overpoll (⟨(), some drop_off.new, ⟨0, true⟩⟩ : SpawnedFuture Unit Nat)
      (fun u => (u, some 5))).2.2.1 drop_off.new () 5 rfl rfl).2⟩

theorem mem_pushBack_self (q : List Nat) (i : Nat) : i ∈ pushBack q i := by
  unfold pushBack; split
  · assumption
  · simp

theorem pushBack_of_mem {q : List Nat} {i : Nat} (h : i ∈ q) : pushBack q i = q := by
  simp [pushBack, h]

theorem pushBack_of_not_mem {q : List Nat} {i : Nat} (h : i ∉ q) :
    pushBack q i = q ++ [i] := by
  simp [pushBack, h]

theorem toAux_aux (i : Nat) : SpawnId.toAux (SpawnId.aux i) = some i := by
  simp [SpawnId.toAux, SpawnId.aux, SpawnId.main]

/-- C1 counterexample: a completed auxiliary task.  One `turn` pops its
identifier, polls it to completion, deactivates its ticket and frees its
slot; yet a subsequent `unpark` of that very ticket enqueues the
identifier again, because `deactivate` never clears the ticket's queue
reference.  So a deactivated ticket is not permanently withdrawn. -/
theorem c1_counterexample :
    (Core.turn_with (⟨⟨[some (some ⟨7, ⟨1, true⟩⟩)], []⟩, [1]⟩ : Inner Nat)
        (MainArg.item (0 : Nat))
        (fun s : Unit => ((Except.ok Async.NotReady : PollR Nat Unit), s, []))
        (fun t => (true, t, []))).2.1.queue = []
  ∧ Ticket.unpark ⟨1, true⟩
      (Core.turn_with (⟨⟨[some (some ⟨7, ⟨1, true⟩⟩)], []⟩, [1]⟩ : Inner Nat)
        (MainArg.item (0 : Nat))
        (fun s : Unit => ((Except.ok Async.NotReady : PollR Nat Unit), s, []))
        (fun t => (true, t, []))).2.1.queue = [1] := by
  refine ⟨rfl, rfl⟩

/-- C1 amended: deactivating a ticket removes any currently-queued entry
for its identifier, but does not withdraw the ticket: a subsequent
trigger of the same ticket re-enqueues the identifier (the resulting
stale entry for a freed slot is later treated as a no-op by `turn`). -/
theorem c1_deactivate_then_unpark {q : List Nat} (t : Ticket)
    (hq : q.Nodup) (ht : t.has_queue = true) :
    t.id ∉ Ticket.deactivate t q
  ∧ Ticket.unpark t (Ticket.deactivate t q) = Ticket.deactivate t q ++ [t.id]
  ∧ t.id ∈ Ticket.unpark t (Ticket.deactivate t q) := by
  have hnm : t.id ∉ Ticket.deactivate t q := by
    simp only [Ticket.deactivate, ht, if_true, queueRemove]
    exact hq.not_mem_erase
  refine ⟨hnm, ?_, ?_⟩
  · simp only [Ticket.unpark, ht, if_true]
    exact pushBack_of_not_mem hnm
  · simp only [Ticket.unpark, ht, if_true]
    exact mem_pushBack_self _ _

/-- C1 amended-claim witness at a concrete queue and ticket. -/
theorem c1_witness :
    (1 : Nat) ∉ Ticket.deactivate ⟨1, true⟩ [1, 2]
  ∧ Ticket.unpark ⟨1, true⟩ (Ticket.deactivate ⟨1, true⟩ [1, 2])
      = Ticket.deactivate ⟨1, true⟩ [1, 2] ++ [1]
  ∧ (1 : Nat) ∈ Ticket.unpark ⟨1, true⟩ (Ticket.deactivate ⟨1, true⟩ [1, 2]) :=
  c1_deactivate_then_unpark ⟨1, true⟩ (by decide) rfl

theorem Arena.remove_vacant {α : Type} {a : Arena α} {i : Nat}
    (h : a.get i = none) : a.remove i = (none, a) := by
  simp [Arena.remove, h]

/-- C2: a `turn` that dequeues an auxiliary identifier whose arena slot
is vacant (already removed by a duplicate pop) only consumes the queue
entry: the task store is unchanged, the main argument untouched, and the
caller sees `NotReady`. -/
theorem c2_turn_vacant_slot {τ σ ι ε : Type} (st : Inner τ) (main : MainArg σ ι)
    (pm : σ → PollR ι ε × σ × List (EAction τ))
    (pa : τ → Bool × τ × List (EAction τ))
    (aux : Nat) (rest : List Nat)
    (hq : st.queue = SpawnId.aux aux :: rest)
    (hv : st.spawns.get aux = none) :
    Core.turn_with st main pm pa
      = (some (Except.ok Async.NotReady), { st with queue := rest }, main) := by
  have hv1 : ({ st with queue := rest } : Inner τ).spawns.get aux = none := hv
  simp [Core.turn_with, hq, popFront, toAux_aux, hv1, Arena.remove_vacant]

/-- C2 witness: queue `[1]`, slot 0 vacant: the turn dequeues and
otherwise does nothing, reporting `NotReady`. -/
theorem c2_witness :
    Core.turn_with (⟨⟨[none], [0]⟩, [1]⟩ : Inner Nat) (MainArg.item (5 : Nat))
        (fun s : Unit => ((Except.ok Async.NotReady : PollR Nat Unit), s, []))
        (fun t => (false, t, []))
      = (some (Except.ok Async.NotReady), (⟨⟨[none], [0]⟩, []⟩ : Inner Nat),
         MainArg.item 5) :=
  c2_turn_vacant_slot (⟨⟨[none], [0]⟩, [1]⟩ : Inner Nat) (MainArg.item 5) _ _ 0 [] rfl rfl

/-- C4: with an empty ready queue, `turn` returns `Ready(idle-value)`
exactly when no auxiliary task remains and no main task was supplied;
every other empty-queue state yields `None`.  A freshly constructed core
with zero spawned tasks completes in one bare `turn()` with `Ready(())`. -/
theorem c4_turn_empty_queue {τ σ ι ε : Type} (st : Inner τ) (main : MainArg σ ι)
    (pm : σ → PollR ι ε × σ × List (EAction τ))
    (pa : τ → Bool × τ × List (EAction τ))
    (hq : st.queue = []) :
    (st.spawns.isEmpty = true → ∀ x : ι, main = MainArg.item x →
        Core.turn_with st main pm pa = (some (Except.ok (Async.Ready x)), st, main))
  ∧ (st.spawns.isEmpty = true → ∀ m : Spawned σ, main = MainArg.spawned m →
        Core.turn_with st main pm pa = (none, st, main))
  ∧ (st.spawns.isEmpty = false →
        Core.turn_with st main pm pa = (none, st, main))
  ∧ (∀ pa0 : τ → Bool × τ × List (EAction τ),
        Core.turn (Inner.new : Inner τ) pa0
          = (some (Except.ok (Async.Ready ())), Inner.new)) := by
  refine ⟨?_, ?_, ?_, fun pa0 => rfl⟩
  · intro he x hm; subst hm; simp [Core.turn_with, hq, popFront, he]
  · intro he m hm; subst hm; simp [Core.turn_with, hq, popFront, he]
  · intro he; simp [Core.turn_with, hq, popFront, he]

/-- C4 witness: empty queue with an occupied slot yields `None`; a fresh
core with a bare turn yields `Ready(())`. -/
theorem c4_witness :
    Core.turn_with (⟨⟨[some (some ⟨3, ⟨1, true⟩⟩)], []⟩, []⟩ : Inner Nat)
        (MainArg.item (5 : Nat))
        (fun s : Unit => ((Except.ok Async.NotReady : PollR Nat Unit), s, []))
        (fun t => (false, t, []))
      = (none, (⟨⟨[some (some ⟨3, ⟨1, true⟩⟩)], []⟩, []⟩ : Inner Nat), MainArg.item 5)
  ∧ Core.turn (Inner.new : Inner Nat) (fun t => (false, t, []))
      = (some (Except.ok (Async.Ready ())), Inner.new) := by
  refine ⟨(c4_turn_empty_queue _ _ _ _ rfl).2.2.1 rfl,
          (c4_turn_empty_queue (Inner.new : Inner Nat) (MainArg.item (5 : Nat))
            (fun s : Unit => ((Except.ok Async.NotReady : PollR Nat Unit), s, []))
            (fun t => (false, t, [])) rfl).2.2.2 (fun t => (false, t, []))⟩

theorem getD_set_self {α : Type} :
    ∀ (l : List α) (i : Nat) (x d : α), i < l.length → (l.set i x).getD i d = x
  | _ :: _, 0, _, _, _ => rfl
  | _ :: l, n + 1, x, d, h => getD_set_self l n x d (Nat.lt_of_succ_lt_succ h)

theorem getD_concat_self {α : Type} :
    ∀ (l : List α) (x d : α), (l ++ [x]).getD l.length d = x
  | [], _, _ => rfl
  | _ :: l, x, d => getD_concat_self l x d

theorem lt_length_of_get_some {α : Type} {a : Arena α} {i : Nat} {v : α}
    (h : a.get i = some v) : i < a.slots.length := by
  by_contra hge
  rw [Arena.get, List.getD_eq_default] at h
  · exact Option.noConfusion h
  · omega

theorem Arena.get_set_self {α : Type} {a : Arena α} {i : Nat} (v : α)
    (h : i < a.slots.length) : (a.set i v).get i = some v :=
  getD_set_self a.slots i (some v) none h

theorem Arena.get_remove_self {α : Type} (a : Arena α) (i : Nat) :
    ((a.remove i).2).get i = none := by
  cases h : a.get i with
  | none => simp [Arena.remove, h]
  | some v =>
    have hl := lt_length_of_get_some h
    simp only [Arena.remove, h]
    exact getD_set_self a.slots i none none hl

theorem Arena.set_slots_length {α : Type} (a : Arena α) (i : Nat) (v : α) :
    (a.set i v).slots.length = a.slots.length := by
  simp [Arena.set]

theorem Arena.length_le_insert {α : Type} (a : Arena α) (v : α) :
    a.slots.length ≤ ((a.insert v).2).slots.length := by
  unfold Arena.insert
  cases a.free <;> simp

theorem length_le_spawn {τ : Type} (alive : Bool) (st : Inner τ) (f : τ) :
    st.spawns.slots.length ≤ (Handle.spawn alive st f).spawns.slots.length := by
  cases alive with
  | false => simp [Handle.spawn]
  | true =>
    simp only [Handle.spawn, if_true, Inner.new_ticket, Arena.set_slots_length]
    exact Arena.length_le_insert st.spawns none

theorem length_le_applyAction {τ : Type} (st : Inner τ) (act : EAction τ) :
    st.spawns.slots.length ≤ (applyAction st act).spawns.slots.length := by
  cases act with
  | unparkT t => simp [applyAction]
  | deactivateT t => simp [applyAction]
  | spawnT f => exact length_le_spawn true st f

theorem length_le_applyActions {τ : Type} (acts : List (EAction τ)) (st : Inner τ) :
    st.spawns.slots.length ≤ (applyActions st acts).spawns.slots.length := by
  induction acts generalizing st with
  | nil => simp [applyActions]
  | cons a rest ih =>
    calc st.spawns.slots.length
        ≤ (applyAction st a).spawns.slots.length := length_le_applyAction st a
      _ ≤ (applyActions (applyAction st a) rest).spawns.slots.length := ih _
      _ = (applyActions st (a :: rest)).spawns.slots.length := rfl

/-- C5: a `turn` that dequeues an auxiliary identifier with an occupied
slot always reports `NotReady` to its caller.  The slot is temporarily
emptied for the poll; on completion the ticket is deactivated and the
slot removed (permanently freed — it reads as vacant afterwards), and
otherwise the slot is re-inserted with the mutated task and the same
ticket. -/
theorem c5_turn_occupied_slot {τ σ ι ε : Type} (st : Inner τ) (main : MainArg σ ι)
    (pm : σ → PollR ι ε × σ × List (EAction τ))
    (pa : τ → Bool × τ × List (EAction τ))
    (aux : Nat) (rest : List Nat) (sp : Spawned τ)
    (done : Bool) (t1 : τ) (acts : List (EAction τ))
    (hq : st.queue = SpawnId.aux aux :: rest)
    (hs : st.spawns.get aux = some (some sp))
    (hp : pa sp.task = (done, t1, acts)) :
    (let stMid := applyActions ⟨st.spawns.set aux none, rest⟩ acts
     Core.turn_with st main pm pa
      = (some (Except.ok Async.NotReady),
         if done then
           ⟨(stMid.spawns.remove aux).2, sp.ticket.deactivate stMid.queue⟩
         else { stMid with spawns := stMid.spawns.set aux (some ⟨t1, sp.ticket⟩) },
         main))
  ∧ (done = true → (Core.turn_with st main pm pa).2.1.spawns.get aux = none)
  ∧ (done = false →
      (Core.turn_with st main pm pa).2.1.spawns.get aux = some (some ⟨t1, sp.ticket⟩)) := by
  have hs1 : ({ st with queue := rest } : Inner τ).spawns.get aux = some (some sp) := hs
  have hmain : Core.turn_with st main pm pa
      = (some (Except.ok Async.NotReady),
         if done then
           ⟨((applyActions ⟨st.spawns.set aux none, rest⟩ acts).spawns.remove aux).2,
            sp.ticket.deactivate (applyActions ⟨st.spawns.set aux none, rest⟩ acts).queue⟩
         else { applyActions ⟨st.spawns.set aux none, rest⟩ acts with
                spawns := (applyActions ⟨st.spawns.set aux none, rest⟩ acts).spawns.set aux
                  (some ⟨t1, sp.ticket⟩) },
         main) := by
    cases done with
    | true => simp [Core.turn_with, hq, popFront, toAux_aux, hs1, hp]
    | false => simp [Core.turn_with, hq, popFront, toAux_aux, hs1, hp]
  refine ⟨hmain, ?_, ?_⟩
  · intro hd; rw [hmain]; subst hd
    simp only [if_true]
    exact Arena.get_remove_self _ aux
  · intro hd; rw [hmain]; subst hd
    simp only [Bool.false_eq_true, if_false]
    refine Arena.get_set_self _ ?_
    have h1 : aux < (st.spawns.set aux none).slots.length := by
      rw [Arena.set_slots_length]
      exact lt_length_of_get_some hs
    exact Nat.lt_of_lt_of_le h1
      (length_le_applyActions acts ⟨st.spawns.set aux none, rest⟩)

/-- C5 witness: one occupied slot; the completing case frees it, and the
turn reports `NotReady`. -/
theorem c5_witness :
    Core.turn_with (⟨⟨[some (some ⟨7, ⟨1, true⟩⟩)], []⟩, [1, 0]⟩ : Inner Nat)
        (MainArg.item (9 : Nat))
        (fun s : Unit => ((Except.ok Async.NotReady : PollR Nat Unit), s, []))
        (fun t => (true, t + 1, []))
      = (some (Except.ok Async.NotReady), (⟨⟨[none], [0]⟩, [0]⟩ : Inner Nat),
         MainArg.item 9)
  ∧ (Core.turn_with (⟨⟨[some (some ⟨7, ⟨1, true⟩⟩)], []⟩, [1, 0]⟩ : Inner Nat)
        (MainArg.item (9 : Nat))
        (fun s : Unit => ((Except.ok Async.NotReady : PollR Nat Unit), s, []))
        (fun t => (true, t + 1, []))).2.1.spawns.get 0 = none := by
  have h := c5_turn_occupied_slot
    (⟨⟨[some (some ⟨7, ⟨1, true⟩⟩)], []⟩, [1, 0]⟩ : Inner Nat)
    (MainArg.item (9 : Nat))
    (fun s : Unit => ((Except.ok Async.NotReady : PollR Nat Unit), s, []))
    (fun t => (true, t + 1, []))
    0 [0] ⟨7, ⟨1, true⟩⟩ true 8 [] rfl rfl rfl
  exact ⟨h.1, h.2.1 rfl⟩

theorem Arena.insert_fresh {α : Type} {a : Arena α} (v : α) (hwf : a.WF) :
    a.get (a.insert v).1 = none := by
  unfold Arena.insert
  cases hf : a.free with
  | nil =>
    simp only [Arena.get]
    exact List.getD_eq_default _ _ (Nat.le_refl _)
  | cons i rest =>
    simpa [Arena.get] using (hwf i (by rw [hf]; exact List.mem_cons_self i rest)).1

theorem Arena.insert_index_lt {α : Type} {a : Arena α} (v : α) (hwf : a.WF) :
    (a.insert v).1 < ((a.insert v).2).slots.length := by
  unfold Arena.insert
  cases hf : a.free with
  | nil => simp
  | cons i rest =>
    simpa using (hwf i (by rw [hf]; exact List.mem_cons_self i rest)).2

theorem Arena.get_insert_self {α : Type} {a : Arena α} (v : α) (hwf : a.WF) :
    ((a.insert v).2).get (a.insert v).1 = some v := by
  unfold Arena.insert
  cases hf : a.free with
  | nil => exact getD_concat_self a.slots (some v) none
  | cons i rest =>
    have hlt := (hwf i (by rw [hf]; exact List.mem_cons_self i rest)).2
    exact getD_set_self a.slots i (some v) none hlt

/-- C6: `spawn` through a handle whose core is gone silently discards the
task without any effect; through a live handle it allocates a vacant
arena slot, creates and triggers a fresh active ticket for that slot
(enqueueing the new identifier, so the task gets an initial poll), then
populates the slot with the task and that ticket. -/
theorem c6_handle_spawn {τ : Type} (st : Inner τ) (f : τ) :
    Handle.spawn false st f = st
  ∧ (let aux := (st.spawns.insert (none : Option (Spawned τ))).1
     Handle.spawn true st f
        = ⟨((st.spawns.insert none).2).set aux (some ⟨f, ⟨SpawnId.aux aux, true⟩⟩),
           pushBack st.queue (SpawnId.aux aux)⟩
     ∧ SpawnId.aux aux ∈ (Handle.spawn true st f).queue
     ∧ (st.spawns.WF →
          st.spawns.get aux = none
        ∧ (Handle.spawn true st f).spawns.get aux
            = some (some ⟨f, ⟨SpawnId.aux aux, true⟩⟩))) := by
  have hdef : Handle.spawn true st f
      = ⟨((st.spawns.insert none).2).set (st.spawns.insert (none : Option (Spawned τ))).1
           (some ⟨f, ⟨SpawnId.aux (st.spawns.insert (none : Option (Spawned τ))).1, true⟩⟩),
         pushBack st.queue (SpawnId.aux (st.spawns.insert (none : Option (Spawned τ))).1)⟩ := by
    simp [Handle.spawn, Inner.new_ticket, Ticket.unpark]
  refine ⟨by simp [Handle.spawn], hdef, ?_, ?_⟩
  · rw [hdef]; exact mem_pushBack_self _ _
  · intro hwf
    refine ⟨Arena.insert_fresh none hwf, ?_⟩
    rw [hdef]
    exact Arena.get_set_self _ (Arena.insert_index_lt none hwf)

/-- C6 witness: spawning into a fresh core allocates slot 0, enqueues
identifier 1 and populates the slot; a dead handle leaves the state
untouched. -/
theorem c6_witness :
    Handle.spawn false (Inner.new : Inner Nat) 7 = Inner.new
  ∧ (1 : Nat) ∈ (Handle.spawn true (Inner.new : Inner Nat) 7).queue
  ∧ (Inner.new : Inner Nat).spawns.get 0 = none
  ∧ (Handle.spawn true (Inner.new : Inner Nat) 7).spawns.get 0
      = some (some ⟨7, ⟨1, true⟩⟩) := by
  have h := c6_handle_spawn (Inner.new : Inner Nat) 7
  have hwf : (Inner.new : Inner Nat).spawns.WF := by
    intro i hi; cases hi
  exact ⟨h.1, h.2.2.1, (h.2.2.2 hwf).1, (h.2.2.2 hwf).2⟩

theorem nodup_pushBack {q : List Nat} (i : Nat) (h : q.Nodup) :
    (pushBack q i).Nodup := by
  by_cases hm : i ∈ q
  · rw [pushBack_of_mem hm]; exact h
  · rw [pushBack_of_not_mem hm]
    simp [List.nodup_append, h, hm]

theorem nodup_queueRemove {q : List Nat} (i : Nat) (h : q.Nodup) :
    (queueRemove q i).Nodup :=
  h.erase i

theorem nodup_unpark {q : List Nat} (t : Ticket) (h : q.Nodup) :
    (Ticket.unpark t q).Nodup := by
  unfold Ticket.unpark; split
  · exact nodup_pushBack _ h
  · exact h

theorem nodup_deactivate {q : List Nat} (t : Ticket) (h : q.Nodup) :
    (Ticket.deactivate t q).Nodup := by
  unfold Ticket.deactivate; split
  · exact nodup_queueRemove _ h
  · exact h

theorem nodup_spawn {τ : Type} (alive : Bool) (st : Inner τ) (f : τ)
    (h : st.queue.Nodup) : (Handle.spawn alive st f).queue.Nodup := by
  cases alive with
  | false => simpa [Handle.spawn] using h
  | true =>
    simp only [Handle.spawn, if_true, Inner.new_ticket, Ticket.unpark]
    exact nodup_pushBack _ h

theorem nodup_applyAction {τ : Type} (st : Inner τ) (act : EAction τ)
    (h : st.queue.Nodup) : (applyAction st act).queue.Nodup := by
  cases act with
  | unparkT t => exact nodup_unpark t h
  | deactivateT t => exact nodup_deactivate t h
  | spawnT f => exact nodup_spawn true st f h

theorem nodup_applyActions {τ : Type} (acts : List (EAction τ)) (st : Inner τ)
    (h : st.queue.Nodup) : (applyActions st acts).queue.Nodup := by
  induction acts generalizing st with
  | nil => exact h
  | cons a rest ih => exact ih (applyAction st a) (nodup_applyAction st a h)

theorem popFront_eq_cons {q : List Nat} {i : Nat} {r : List Nat}
    (h : popFront q = some (i, r)) : q = i :: r := by
  cases q with
  | nil => simp [popFront] at h
  | cons x xs =>
    simp only [popFront, Option.some.injEq, Prod.mk.injEq] at h
    rw [h.1, h.2]

theorem nodup_of_popFront {q : List Nat} {i : Nat} {r : List Nat}
    (h : popFront q = some (i, r)) (hn : q.Nodup) : r.Nodup := by
  rw [popFront_eq_cons h] at hn
  exact hn.of_cons

theorem nodup_run_future_setup {τ : Type} (st : Inner τ) (h : st.queue.Nodup) :
    ((Core.run_future_setup st).2).queue.Nodup := by
  simp only [Core.run_future_setup, Inner.new_ticket, Ticket.unpark, if_true]
  exact nodup_pushBack _ (nodup_queueRemove _ h)

theorem nodup_turn_with {τ σ ι ε : Type} (st : Inner τ) (main : MainArg σ ι)
    (pm : σ → PollR ι ε × σ × List (EAction τ))
    (pa : τ → Bool × τ × List (EAction τ))
    (h : st.queue.Nodup) :
    ((Core.turn_with st main pm pa).2.1).queue.Nodup := by
  unfold Core.turn_with
  cases hpop : popFront st.queue with
  | none => exact h
  | some p =>
    obtain ⟨index, q1⟩ := p
    have h1 : q1.Nodup := nodup_of_popFront hpop h
    dsimp only
    cases SpawnId.toAux index with
    | none =>
      cases main with
      | item x => exact h1
      | spawned m =>
        dsimp only
        cases (pm m.task).1 with
        | error e => exact nodup_applyActions _ _ h1
        | ok a =>
          cases a with
          | NotReady => exact nodup_applyActions _ _ h1
          | Ready x => exact nodup_deactivate _ (nodup_applyActions _ _ h1)
    | some aux =>
      dsimp only
      cases st.spawns.get aux with
      | none => exact h1
      | some o =>
        cases o with
        | none => exact h1
        | some sp =>
          dsimp only
          cases (pa sp.task).1 with
          | true => exact nodup_deactivate _ (nodup_applyActions _ _ h1)
          | false => exact nodup_applyActions _ _ h1

/-- Every state the executor can reach, starting from a freshly
constructed core, through any interleaving of spawns, external
unparks/deactivates of arbitrary tickets, `run_future` setups and turns
with arbitrary poll behaviors. -/
inductive Reachable {τ : Type} : Inner τ → Prop where
  | init : Reachable Inner.new
  | spawn_step {st : Inner τ} (alive : Bool) (f : τ) :
      Reachable st → Reachable (Handle.spawn alive st f)
  | extern_unpark {st : Inner τ} (t : Ticket) :
      Reachable st → Reachable { st with queue := t.unpark st.queue }
  | extern_deactivate {st : Inner τ} (t : Ticket) :
      Reachable st → Reachable { st with queue := t.deactivate st.queue }
  | run_future_step {st : Inner τ} :
      Reachable st → Reachable (Core.run_future_setup st).2
  | turn_step {st : Inner τ} {σ ι ε : Type} (main : MainArg σ ι)
      (pm : σ → PollR ι ε × σ × List (EAction τ))
      (pa : τ → Bool × τ × List (EAction τ)) :
      Reachable st → Reachable (Core.turn_with st main pm pa).2.1

theorem reachable_nodup {τ : Type} {st : Inner τ} (h : Reachable st) :
    st.queue.Nodup := by
  induction h with
  | init => exact List.nodup_nil
  | spawn_step alive f _ ih => exact nodup_spawn alive _ f ih
  | extern_unpark t _ ih => exact nodup_unpark t ih
  | extern_deactivate t _ ih => exact nodup_deactivate t ih
  | run_future_step _ ih => exact nodup_run_future_setup _ ih
  | turn_step main pm pa _ ih => exact nodup_turn_with _ main pm pa ih

theorem count_eq_one_of_nodup_mem {q : List Nat} {i : Nat}
    (h : q.Nodup) (hm : i ∈ q) : q.count i = 1 :=
  Nat.le_antisymm (List.nodup_iff_count_le_one.mp h i)
    (List.count_pos_iff.mpr hm)

/-- C3: at every reachable state of the executor the ready queue holds no
duplicate identifiers; and triggering an active ticket twice between
polls coalesces into exactly one queued entry for its identifier — the
entry is present in the queue, so a later FIFO dequeue polls the task at
least once. -/
theorem c3_queue_dedup {τ : Type} (st : Inner τ) (t : Ticket)
    (hr : Reachable st) (ht : t.has_queue = true) :
    st.queue.Nodup
  ∧ (Ticket.unpark t (Ticket.unpark t st.queue)).count t.id = 1
  ∧ t.id ∈ Ticket.unpark t (Ticket.unpark t st.queue) := by
  have hn := reachable_nodup hr
  have h1 : (Ticket.unpark t st.queue).Nodup := nodup_unpark t hn
  have hm : t.id ∈ Ticket.unpark t st.queue := by
    simp only [Ticket.unpark, ht, if_true]
    exact mem_pushBack_self _ _
  have h2 : Ticket.unpark t (Ticket.unpark t st.queue) = Ticket.unpark t st.queue := by
    simp only [Ticket.unpark, ht, if_true]
    exact pushBack_of_mem (by simpa [Ticket.unpark, ht] using hm)
  rw [h2]
  exact ⟨hn, count_eq_one_of_nodup_mem h1 hm, hm⟩

/-- C3 witness: a state reached by one spawn and one turn, with the
spawned task's own ticket triggered twice. -/
theorem c3_witness :
    (Handle.spawn true (Inner.new : Inner Nat) 7).queue.Nodup
  ∧ (Ticket.unpark ⟨1, true⟩
       (Ticket.unpark ⟨1, true⟩ (Handle.spawn true (Inner.new : Inner Nat) 7).queue)).count 1 = 1
  ∧ (1 : Nat) ∈ Ticket.unpark ⟨1, true⟩
       (Ticket.unpark ⟨1, true⟩ (Handle.spawn true (Inner.new : Inner Nat) 7).queue) :=
  c3_queue_dedup (Handle.spawn true (Inner.new : Inner Nat) 7) ⟨1, true⟩
    (Reachable.spawn_step true 7 Reachable.init) rfl

end Synchrotron
